import Mathlib

/-!
Verification of the protocol/decision core of `juiceboxservice.py`
(potatono/juiceboxservice): the field codec, the device-message grammar,
the sequence/command emulator, the schedule evaluator and the reply
composer, shallowly embedded in Lean.

Modelling conventions:
* Python `int` is embedded as `Int` and Python `float` as `Rat`: the
  source only multiplies by 0.1 / 0.01 / 1.8 and adds 32, which is exact
  on the decimal readings involved; IEEE specials `inf`/`nan` are outside
  the rational model, so a conversion producing them is treated as not
  converting.  The rational operations are spelled with `mkRat` (`qmul`,
  `qadd`, `qneg` below, proved equal to `*`, `+`, `-`) so that closed
  telegrams evaluate inside the kernel.
* Exceptions (AttributeError, ValueError, IndexError, TypeError) are
  embedded as `Option`: `none` means the Python code raises.
* The two regular expressions of `from_string` are anchored maximal-munch
  grammars: every character class in them excludes the delimiter that
  follows it, so backtracking can never produce a different match and the
  deterministic longest-run scanner below is equivalent to `re.search`.
  Telegrams are newline-free ASCII (spec glossary), so `$` is modelled as
  end of string and `.` as any character except a newline.
* Dynamic `setattr` on the message object is embedded as an ordered
  association list `fields`; a later assignment shadows an earlier one,
  so lookup (`getField`) takes the last binding, and `hasattr` is
  `hasField`.
* `juicebox.message.Message` (the outbound serializer object) is not part
  of the analysed source; the `ServiceMessage` record below is modelled
  from the spec (sections 3 and 6).
-/

/-- Exact rational multiplication, written with `mkRat` so that closed
telegrams evaluate inside the kernel (`Rat.mul` is irreducible); proved
equal to `*` in `qmul_eq` below. -/
def qmul (a b : ℚ) : ℚ := mkRat (a.num * b.num) (a.den * b.den)

/-- Exact rational addition via `mkRat`; proved equal to `+` in `qadd_eq`. -/
def qadd (a b : ℚ) : ℚ := mkRat (a.num * (b.den : ℤ) + b.num * (a.den : ℤ)) (a.den * b.den)

/-- Exact rational negation via `mkRat`; proved equal to `-` in `qneg_eq`. -/
def qneg (a : ℚ) : ℚ := mkRat (-a.num) a.den

/-- A decoded Python value: a string, an `int`, or a `float` (as `Rat`). -/
inductive PyVal where
  | str (s : String)
  | int (n : ℤ)
  | num (q : ℚ)
deriving DecidableEq

/-- The declared value kind of a field-codec entry (`str` / `int` / `float`). -/
inductive VKind where
  | text
  | int
  | float
deriving DecidableEq

/-- One row of the `DeviceMessage.xlat` translation table. -/
structure XlatEntry where
  name : String
  kind : VKind
  mult : Option ℚ
  ofs : Option ℚ
  enum : Option (List String)
deriving DecidableEq

/-- The static translation table `DeviceMessage.xlat`, keyed by the
one-character field code (source lines 12-39). -/
def DeviceMessage.xlat (c : Char) : Option XlatEntry :=
  match c with
  | 'v' => some ⟨"version", VKind.text, none, none, none⟩
  | 'A' => some ⟨"current", VKind.float, some (mkRat 1 10), none, none⟩
  | 'u' => some ⟨"loop_counter", VKind.int, none, none, none⟩
  | 'V' => some ⟨"voltage", VKind.float, some (mkRat 1 10), none, none⟩
  | 'L' => some ⟨"lifetime", VKind.int, none, none, none⟩
  | 'S' => some ⟨"status", VKind.int, none, none,
      some ["unplugged", "plugged-in", "charging", "not-defined", "error"]⟩
  | 'T' => some ⟨"temperature", VKind.float, some (mkRat 9 5), some (mkRat 32 1), none⟩
  | 'M' => some ⟨"current_default", VKind.int, none, none, none⟩
  | 'm' => some ⟨"current_rating", VKind.int, none, none, none⟩
  | 't' => some ⟨"report_time", VKind.int, none, none, none⟩
  | 'i' => some ⟨"interval", VKind.int, none, none, none⟩
  | 'f' => some ⟨"frequency", VKind.float, some (mkRat 1 100), none, none⟩
  | 's' => some ⟨"sequence", VKind.int, none, none, none⟩
  | 'F' => some ⟨"F", VKind.int, none, none, none⟩
  | 'C' => some ⟨"current_available", VKind.int, none, none, none⟩
  | 'e' => some ⟨"e", VKind.int, none, none, none⟩
  | 'r' => some ⟨"r", VKind.int, none, none, none⟩
  | 'b' => some ⟨"b", VKind.int, none, none, none⟩
  | 'B' => some ⟨"B", VKind.int, none, none, none⟩
  | 'p' => some ⟨"p", VKind.int, none, none, none⟩
  | 'E' => some ⟨"E", VKind.int, none, none, none⟩
  | 'P' => some ⟨"P", VKind.int, none, none, none⟩
  | _ => none

/-- Decimal digit value of a character. -/
def dv (c : Char) : ℕ := c.toNat - 48

/-- Scan a maximal run of decimal digits, allowing a single underscore
between two digits (Python numeric-literal syntax accepted by `int()` and
`float()`).  Returns the accumulated value, the number of digits read and
the unread remainder. -/
def munchDigits : ℕ → ℕ → List Char → ℕ × ℕ × List Char
  | acc, k, [] => (acc, k, [])
  | acc, k, [c] =>
    if c.isDigit then (acc * 10 + dv c, k + 1, ([] : List Char)) else (acc, k, [c])
  | acc, k, c1 :: c2 :: rest =>
    if c1.isDigit then munchDigits (acc * 10 + dv c1) (k + 1) (c2 :: rest)
    else if c1 == '_' && c2.isDigit then munchDigits (acc * 10 + dv c2) (k + 1) rest
    else (acc, k, c1 :: c2 :: rest)

/-- A digit run may not start with an underscore. -/
def munchDigitRun (l : List Char) : ℕ × ℕ × List Char :=
  match l with
  | c :: _ => if c.isDigit then munchDigits 0 0 l else (0, 0, l)
  | [] => (0, 0, [])

/-- Python `int(s)` for a nonnegative digit string (after the sign has been
taken off): the whole remaining string must be a digit run. -/
def pyNat (l : List Char) : Option ℕ :=
  let r := munchDigitRun l
  if r.2.1 ≠ 0 ∧ r.2.2 = [] then some r.1 else none

/-- Python `int(s)`; `none` models `ValueError`.  (Surrounding whitespace
cannot occur in a telegram field value.) -/
def pyInt (l : List Char) : Option ℤ :=
  match l with
  | '-' :: rest => (pyNat rest).map (fun n => -(n : ℤ))
  | '+' :: rest => (pyNat rest).map (fun n => (n : ℤ))
  | _ => (pyNat l).map (fun n => (n : ℤ))

/-- The optional exponent part of a Python float literal. -/
def pyExpPart (m : ℚ) (l : List Char) : Option ℚ :=
  match l with
  | [] => some m
  | c :: r =>
    if c == 'e' || c == 'E' then
      let sr : Bool × List Char :=
        match r with
        | '-' :: t => (true, t)
        | '+' :: t => (false, t)
        | t => (false, t)
      let er := munchDigitRun sr.2
      if er.2.1 = 0 ∨ er.2.2 ≠ [] then none
      else some (if sr.1 then mkRat m.num (m.den * 10 ^ er.1)
                 else mkRat (m.num * (10 : ℤ) ^ er.1) m.den)
    else none

/-- The unsigned part of Python `float(s)`: digits, an optional fractional
part, an optional exponent. -/
def pyFloatAfterSign (l : List Char) : Option ℚ :=
  let ir := munchDigitRun l
  match ir.2.2 with
  | '.' :: r2 =>
    let fr := munchDigitRun r2
    if ir.2.1 = 0 ∧ fr.2.1 = 0 then none
    else pyExpPart (mkRat ((ir.1 : ℤ) * 10 ^ fr.2.1 + (fr.1 : ℤ)) (10 ^ fr.2.1)) fr.2.2
  | _ => if ir.2.1 = 0 then none else pyExpPart (mkRat (ir.1 : ℤ) 1) ir.2.2

/-- Python `float(s)`; `none` models `ValueError`.  IEEE specials
(`inf`, `nan`) are outside the rational model and also map to `none`. -/
def pyFloat (l : List Char) : Option ℚ :=
  match l with
  | '-' :: rest => (pyFloatAfterSign rest).map qneg
  | '+' :: rest => pyFloatAfterSign rest
  | _ => pyFloatAfterSign l

/-- Python list indexing `labels[n]` with an `int` index: negative indices
count from the end, out-of-range raises `IndexError` (`none`). -/
def pyIndexStr (l : List String) (n : ℤ) : Option String :=
  if 0 ≤ n ∧ n < (l.length : ℤ) then some (l.getD n.toNat "")
  else if -(l.length : ℤ) ≤ n ∧ n < 0 then some (l.getD (n + (l.length : ℤ)).toNat "")
  else none

/-- The value pipeline of `DeviceMessage.xlat_payload_part` (source lines
60-71): convert the raw value text to the declared kind, multiply by the
declared multiplier, add the declared offset, and finally apply the
enumeration lookup.  `none` models an uncaught exception. -/
def DeviceMessage.xlat_value (x : XlatEntry) (val : List Char) : Option PyVal := do
      let v0 ← match x.kind with
        | VKind.text => some (PyVal.str (String.mk val))
        | VKind.int => (pyInt val).map PyVal.int
        | VKind.float => (pyFloat val).map PyVal.num
      let v1 ← match x.mult with
        | none => some v0
        | some mq =>
          match v0 with
          | PyVal.int n => some (PyVal.num (qmul (mkRat n 1) mq))
          | PyVal.num q => some (PyVal.num (qmul q mq))
          | PyVal.str _ => none
      let v2 ← match x.ofs with
        | none => some v1
        | some oq =>
          match v1 with
          | PyVal.int n => some (PyVal.num (qadd (mkRat n 1) oq))
          | PyVal.num q => some (PyVal.num (qadd q oq))
          | PyVal.str _ => none
      let v3 ← match x.enum with
        | none => some v2
        | some labels =>
          match v2 with
          | PyVal.int n => (pyIndexStr labels n).map PyVal.str
          | _ => none
      pure v3

/-- `DeviceMessage.xlat_payload_part` (source lines 53-73): split one
comma-separated field into its one-character code and raw value text.  A
code absent from the table prints a diagnostic and returns the raw
`(code, value)` pair unchanged; a known code pairs the table name with
the value decoded by `xlat_value`.  `none` models an uncaught exception
(an empty part raises `IndexError` at `part[0]`). -/
def DeviceMessage.xlat_payload_part (part : List Char) : Option (String × PyVal) :=
  match part with
  | [] => none
  | cmd :: val =>
    match DeviceMessage.xlat cmd with
    | none => some (String.mk [cmd], PyVal.str (String.mk val))
    | some x => (DeviceMessage.xlat_value x val).map (fun v => (x.name, v))

/-- True exactly when `xlat_payload_part` prints the `Unknown cmd`
diagnostic for this field (source line 59). -/
def DeviceMessage.unknown_cmd_diag (part : List Char) : Bool :=
  match part with
  | [] => false
  | c :: _ => (DeviceMessage.xlat c).isNone

/-- Python `\w` on the ASCII telegrams exchanged with the device. -/
def isWordC (c : Char) : Bool := c.isAlphanum || c == '_'

/-- The character class `[\-\w,]` of the data-grammar payload group. -/
def isPayloadC (c : Char) : Bool := isWordC c || c == '-' || c == ','

/-- Scan one regex group `(class+)` followed by its literal delimiter: a
nonempty maximal run of `p`-characters, then exactly `dl`.  Because every
class used below excludes its delimiter, this deterministic maximal-munch
scan is exactly what the backtracking regex engine matches. -/
def scanTok (p : Char → Bool) (dl : Char) (s : List Char) :
    Option (List Char × List Char) :=
  match s.takeWhile p, s.dropWhile p with
  | t0 :: t1, d :: rest => if d = dl then some (t0 :: t1, rest) else none
  | _, _ => none

/-- The data grammar: `re.search` of `^(\d+):([\-\w,]+)!(\w+):` (source
line 79).  The pattern is anchored at the start and open at the end; the
groups `(device id, payload, checksum)` are returned and anything after
the closing colon is ignored. -/
def dataMatchL (s : List Char) : Option (List Char × List Char × List Char) :=
  match scanTok Char.isDigit ':' s with
  | none => none
  | some (d, r2) =>
    match scanTok isPayloadC '!' r2 with
    | none => none
    | some (pl, r4) =>
      match scanTok isWordC ':' r4 with
      | none => none
      | some (crc, _) => some (d, pl, crc)

/-- The debug grammar: `re.search` of `^(\d+):DBG,(\w+):(.+?):$` (source
line 97).  Anchored at both ends: the free text is everything between the
level's colon and the line's final character, which must be a colon; `.`
excludes the newline (telegrams are newline-free, so the trailing-newline
concession of Python's `$` does not arise). -/
def debugMatchL (s : List Char) : Option (List Char × List Char × List Char) :=
  match scanTok Char.isDigit ':' s with
  | none => none
  | some (d, r1) =>
    match r1 with
    | 'D' :: 'B' :: 'G' :: ',' :: r2 =>
      match scanTok isWordC ':' r2 with
      | none => none
      | some (lvl, r4) =>
        if 2 ≤ r4.length ∧ r4.getLast? = some ':' ∧ r4.dropLast.all (fun c => c != '\n')
        then some (d, lvl, r4.dropLast)
        else none
    | _ => none

/-- Python `payload.split(',')`: separators are not kept, empty pieces are. -/
def splitComma : List Char → List (List Char)
  | [] => [[]]
  | c :: rest =>
    if c == ',' then [] :: splitComma rest
    else
      match splitComma rest with
      | [] => [[c]]
      | p :: ps => (c :: p) :: ps

/-- The decoded device message.  The dynamically `setattr`-ed decoded
fields are kept as an ordered association list (`fields`); all other
attributes are those assigned in `__init__` and the two parse branches. -/
structure DeviceMessage where
  device_id : Option String
  payload : String
  crc : Option String
  payload_type : String
  fields : List (String × PyVal)
  debug_level : Option String
  debug_message : Option String
deriving DecidableEq

/-- `DeviceMessage.__init__` (source lines 41-45). -/
def DeviceMessage.init : DeviceMessage :=
  ⟨none, "", none, "data", [], none, none⟩

/-- `hasattr` restricted to the dynamically assigned decoded fields. -/
def hasField (fs : List (String × PyVal)) (name : String) : Bool :=
  fs.any (fun kv => kv.1 == name)

/-- Read a dynamically assigned field; the latest assignment wins, as for
repeated `setattr` on the same name. -/
def getField (m : DeviceMessage) (name : String) : Option PyVal :=
  (m.fields.reverse.find? (fun kv => kv.1 == name)).map (fun kv => kv.2)

/-- Decode the comma-split payload parts in order; the first part that
raises makes the whole telegram raise (`none`). -/
def processParts : List (List Char) → Option (List (String × PyVal))
  | [] => some []
  | p :: ps => do
    let kv ← DeviceMessage.xlat_payload_part p
    let rest ← processParts ps
    pure (kv :: rest)

/-- `DeviceMessage.from_string` (source lines 75-106): try the data
grammar, then the debug grammar; on neither match the `__init__` defaults
are kept (device id `None`, payload type `"data"`). -/
def DeviceMessage.from_string (msg : String) : Option DeviceMessage :=
  match dataMatchL msg.data with
  | some (d, pl, crc) =>
    (processParts (splitComma pl)).map (fun fs =>
      let fs2 := if hasField fs "current" then fs else fs ++ [("current", PyVal.int 0)]
      { device_id := some (String.mk d), payload := msg, crc := some (String.mk crc),
        payload_type := "data", fields := fs2, debug_level := none, debug_message := none })
  | none =>
    match debugMatchL msg.data with
    | some (d, lvl, txt) =>
      some { device_id := some (String.mk d), payload := msg, crc := none,
             payload_type := "debug", fields := [],
             debug_level := some (String.mk lvl), debug_message := some (String.mk txt) }
    | none => some { DeviceMessage.init with payload := msg }

/-- Modelled from the spec: the outbound message record consumed by the
external serializer (`juicebox.message.Message`, imported but not part of
the analysed source).  Spec sections 3 and 6 give its fields: counter,
command, offline amperage, instant amperage, optional version, optional
raw-payload override; optional fields are first-class absent (section 9). -/
structure ServiceMessage where
  counter : ℤ
  command : ℤ
  offline_amperage : Option PyVal
  instant_amperage : Option PyVal
  version : Option PyVal
  payload_str : Option String
deriving DecidableEq

/-- Modelled from the spec: a freshly constructed outbound record has no
optional field set.  The initial counter is immaterial to every data
exchange (it is re-seeded from the device's sequence number, section 3),
so it is fixed to 0 here. -/
def ServiceMessage.fresh : ServiceMessage :=
  ⟨0, 0, none, none, none, none⟩

/-- The opaque command table (source line 118). -/
def JuiceboxService.cmd_seq : List ℤ := [6, 242, 8, 244]

/-- `JuiceboxService.update_sequence` (source lines 158-167). -/
def JuiceboxService.update_sequence (smsg : ServiceMessage) (sequence : Option ℤ) :
    ServiceMessage :=
  let s1 :=
    match sequence with
    | some s => { smsg with counter := s }
    | none => smsg
  let s2 := { s1 with counter := s1.counter + 1 }
  let s3 := if s2.counter > 999 then { s2 with counter := 1 } else s2
  { s3 with command := JuiceboxService.cmd_seq.getD (s3.counter % 4).toNat 0 }

/-- `JuiceboxService.create_reply_message` (source lines 183-192), with the
fresh outbound record passed explicitly.  Reading a device field that was
not decoded raises `AttributeError` (`none`). -/
def JuiceboxService.create_reply_message (smsg0 : ServiceMessage) (dmsg : DeviceMessage) :
    Option ServiceMessage := do
  let cd ← getField dmsg "current_default"
  let ca ← getField dmsg "current_available"
  let sq ← getField dmsg "sequence"
  let sqn ← match sq with
    | PyVal.int n => some n
    | _ => none
  let s1 := { smsg0 with offline_amperage := some cd, instant_amperage := some ca }
  let s2 := JuiceboxService.update_sequence s1 (some sqn)
  if s2.version.isSome then
    match getField dmsg "version" with
    | some v => some { s2 with version := some v }
    | none => none
  else
    some s2

/-- The local `after_start` of `is_in_schedule` (source line 219). -/
def JuiceboxService.after_start (start_hour start_min hour minute : ℤ) : Bool :=
  decide (hour ≥ start_hour) && decide (minute ≥ start_min)

/-- The local `before_end` of `is_in_schedule` (source line 220). -/
def JuiceboxService.before_end (end_hour end_min hour minute : ℤ) : Bool :=
  decide (hour ≤ end_hour) && decide (minute ≤ end_min)

/-- `JuiceboxService.is_in_schedule` (source lines 214-225), with the
configured window and the wall-clock hour/minute passed explicitly. -/
def JuiceboxService.is_in_schedule
    (start_hour start_min end_hour end_min hour minute : ℤ) : Bool :=
  let a := JuiceboxService.after_start start_hour start_min hour minute
  let b := JuiceboxService.before_end end_hour end_min hour minute
  if start_hour < end_hour then a && b else a || b

/-- `JuiceboxService.current_change_value` (source lines 227-236), with the
configured target (`args.current`), the window, the time and the device's
reported `current_available` passed explicitly. -/
def JuiceboxService.current_change_value
    (args_current start_hour start_min end_hour end_min hour minute
     current_available : ℤ) : Option ℤ :=
  let current := current_available
  let in_schedule :=
    JuiceboxService.is_in_schedule start_hour start_min end_hour end_min hour minute
  if in_schedule && !(current == args_current) then some args_current
  else if !in_schedule && decide (0 < current) then some 0
  else none

/-- The exchange loop replies exactly to messages whose payload type is
`"data"` (source line 253: every other message is skipped). -/
def JuiceboxService.replies_to (dmsg : DeviceMessage) : Bool :=
  dmsg.payload_type == "data"

/-- The parse-result components of a decoded message that do not echo the
raw input line: device id, checksum, payload kind and decoded fields. -/
def msgCore (m : DeviceMessage) :
    Option String × Option String × String × List (String × PyVal) :=
  (m.device_id, m.crc, m.payload_type, m.fields)

/-! Bridge lemmas: the reducible `mkRat` arithmetic used by the codec is
ordinary rational arithmetic. -/

theorem den_cast_ne (a : ℚ) : ((a.den : ℚ)) ≠ 0 :=
  Nat.cast_ne_zero.mpr a.den_pos.ne'

theorem num_eq_mul_den (a : ℚ) : (a.num : ℚ) = a * a.den :=
  (div_eq_iff (den_cast_ne a)).mp (Rat.num_div_den a)

theorem qmul_eq (a b : ℚ) : qmul a b = a * b := by
  rw [qmul, Rat.mkRat_eq_div]
  push_cast
  rw [← div_mul_div_comm, Rat.num_div_den, Rat.num_div_den]

theorem qadd_eq (a b : ℚ) : qadd a b = a + b := by
  rw [qadd, Rat.mkRat_eq_div]
  push_cast
  rw [div_eq_iff (mul_ne_zero (den_cast_ne a) (den_cast_ne b)), num_eq_mul_den a,
    num_eq_mul_den b]
  ring

theorem qneg_eq (a : ℚ) : qneg a = -a := by
  rw [qneg, Rat.mkRat_eq_div]
  push_cast
  rw [neg_div, Rat.num_div_den]

example : pyInt "032".data = some 32 := by decide
example : pyFloat "010".data = some 10 := by decide
example : pyFloat "1e2".data = some 100 := by decide
example : pyInt "1_0".data = some 10 := by decide
example : pyInt "1__0".data = none := by decide
example : dataMatchL "123:A010,S1,C032!AB12:".data =
    some ("123".data, "A010,S1,C032".data, "AB12".data) := by decide
example : (DeviceMessage.from_string "123:A010,S1,C032!AB12:").map
    (fun m => (m.device_id, getField m "current", getField m "status",
               getField m "current_available")) =
    some (some "123", some (PyVal.num 1), some (PyVal.str "plugged-in"),
          some (PyVal.int 32)) := by decide
example : (DeviceMessage.from_string "123:DBG,2:boot ok:").map
    (fun m => (m.device_id, m.payload_type, m.debug_level, m.debug_message)) =
    some (some "123", "debug", some "2", some "boot ok") := by decide
example : (DeviceMessage.from_string "hello").map
    (fun m => (m.device_id, m.payload_type)) = some (none, "data") := by decide

/-- C1: for every configured window and every time of day, `is_in_schedule`
computes `afterStart = (hour >= startHour AND minute >= startMinute)` and
`beforeEnd = (hour <= endHour AND minute <= endMinute)`, returning
`afterStart AND beforeEnd` when `startHour < endHour` and
`afterStart OR beforeEnd` otherwise; in particular for window start 9:45
and time 10:05 the component-wise `afterStart` is false. -/
theorem c1_is_in_schedule_componentwise :
    ∀ sh sm eh em h m : ℤ,
      (JuiceboxService.is_in_schedule sh sm eh em h m = true ↔
        (if sh < eh
         then (h ≥ sh ∧ m ≥ sm) ∧ (h ≤ eh ∧ m ≤ em)
         else (h ≥ sh ∧ m ≥ sm) ∨ (h ≤ eh ∧ m ≤ em)))
      ∧ JuiceboxService.after_start 9 45 10 5 = false := by
  intro sh sm eh em h m
  constructor
  · unfold JuiceboxService.is_in_schedule JuiceboxService.after_start
      JuiceboxService.before_end
    by_cases hlt : sh < eh <;> simp [hlt, ge_iff_le]
  · decide

/-- C2: `update_sequence` first takes the device-reported sequence number
when one is supplied (otherwise the stored counter), increments it by one,
wraps to 1 when the result exceeds 999 (999 yields 1, 3 yields 4), and the
outbound command is the entry of the fixed table `[6, 242, 8, 244]` at
index `newCounter mod 4`. -/
theorem c2_update_sequence (smsg : ServiceMessage) (seed : Option ℤ) :
    (JuiceboxService.update_sequence smsg seed).counter =
      (if (match seed with | some s => s | none => smsg.counter) + 1 > 999 then 1
       else (match seed with | some s => s | none => smsg.counter) + 1)
    ∧ (JuiceboxService.update_sequence smsg seed).command =
        [(6 : ℤ), 242, 8, 244].getD
          ((JuiceboxService.update_sequence smsg seed).counter % 4).toNat 0
    ∧ (JuiceboxService.update_sequence { smsg with counter := 999 } none).counter = 1
    ∧ (JuiceboxService.update_sequence { smsg with counter := 3 } none).counter = 4 := by
  refine ⟨?_, ?_, ?_, ?_⟩
  · cases seed <;> simp only [JuiceboxService.update_sequence] <;> split <;> simp_all
  · cases seed <;> simp only [JuiceboxService.update_sequence, JuiceboxService.cmd_seq]
  · simp [JuiceboxService.update_sequence]
  · simp [JuiceboxService.update_sequence]

/-- C3: `current_change_value` returns the configured target when in-window
and the reported available current differs from it, 0 when out of window
and the reported available current is positive, and nothing otherwise. -/
theorem c3_current_change_value (target sh sm eh em h m cur : ℤ) :
    JuiceboxService.current_change_value target sh sm eh em h m cur =
      (if JuiceboxService.is_in_schedule sh sm eh em h m = true ∧ cur ≠ target
       then some target
       else if JuiceboxService.is_in_schedule sh sm eh em h m = false ∧ 0 < cur
       then some 0
       else none) := by
  unfold JuiceboxService.current_change_value
  cases hs : JuiceboxService.is_in_schedule sh sm eh em h m <;>
    by_cases ht : cur = target <;> by_cases hp : (0 : ℤ) < cur <;> simp [hs, ht, hp]

/-- C4: for an input line matching neither grammar the reference code keeps
the `__init__` default `payload_type = "data"` (device id absent), so the
exchange loop does NOT drop it — it proceeds to reply.  This contradicts
the claimed `unrecognized`-and-drop behaviour, which the spec itself marks
as the corrected behaviour relative to this reference defect. -/
theorem c4_unmatched_line_is_kept_as_data :
    (DeviceMessage.from_string "hello").map
        (fun m => (m.device_id, m.payload_type, JuiceboxService.replies_to m)) =
      some (none, "data", true) := by decide

/-- Helper: a table entry whose decoded name is `current` can only come
from the field code `A`. -/
theorem xlat_name_current (c : Char) (e : XlatEntry)
    (h : DeviceMessage.xlat c = some e) (hn : e.name = "current") : c = 'A' := by
  unfold DeviceMessage.xlat at h
  split at h
  all_goals first
  | exact Option.noConfusion h
  | (cases h; first | rfl | simp at hn)

/-- Helper: for a known field code the decoded name is the table name. -/
theorem xlat_payload_part_known_name (c : Char) (val : List Char) (e : XlatEntry)
    (hx : DeviceMessage.xlat c = some e) (n : String) (v : PyVal)
    (h : DeviceMessage.xlat_payload_part (c :: val) = some (n, v)) : n = e.name := by
  simp only [DeviceMessage.xlat_payload_part, hx] at h
  rcases Option.map_eq_some'.mp h with ⟨w, hw, h⟩
  exact (congrArg Prod.fst h).symm

/-- Helper: a payload part that does not begin with `A` never decodes to a
field named `current`. -/
theorem part_name_ne_current (p : List Char) (hp : p.head? ≠ some 'A')
    (n : String) (v : PyVal)
    (h : DeviceMessage.xlat_payload_part p = some (n, v)) : n ≠ "current" := by
  match p with
  | [] => simp [DeviceMessage.xlat_payload_part] at h
  | c :: val =>
    have hc : c ≠ 'A' := by simpa using hp
    cases hx : DeviceMessage.xlat c with
    | none =>
      simp only [DeviceMessage.xlat_payload_part, hx, Option.some.injEq,
        Prod.mk.injEq] at h
      intro he
      rw [← h.1] at he
      rw [show ("current" : String) = String.mk ['c','u','r','r','e','n','t'] from rfl] at he
      injection he with he
      simp at he
    | some e =>
      have := xlat_payload_part_known_name c val e hx n v h
      intro he
      exact hc (xlat_name_current c e hx (by rw [← this, he]))

/-- Helper: if no payload part begins with `A`, no decoded field is named
`current`. -/
theorem processParts_no_current : ∀ (ps : List (List Char)) (fs : List (String × PyVal)),
    processParts ps = some fs → (∀ p ∈ ps, p.head? ≠ some 'A') →
    hasField fs "current" = false := by
  intro ps
  induction ps with
  | nil =>
    intro fs h hA
    simp only [processParts, Option.some.injEq] at h
    subst h
    rfl
  | cons p ps ih =>
    intro fs h hA
    simp only [processParts] at h
    rcases Option.bind_eq_some.mp h with ⟨kv, hkv, h⟩
    rcases Option.bind_eq_some.mp h with ⟨rest, hrest, h⟩
    simp only [pure, Option.some.injEq] at h
    subst h
    have h1 : kv.1 ≠ "current" :=
      part_name_ne_current p (hA p (List.mem_cons_self p ps)) kv.1 kv.2
        (by rw [← hkv])
    have h2 := ih rest hrest (fun q hq => hA q (List.mem_cons_of_mem p hq))
    simp [hasField] at h2 ⊢
    exact ⟨h1, h2⟩

/-- C5 counterexample: in the telegram `7:Z9,A010!AB:` the field `Z9` has
the unknown code `Z`, yet the decoded message carries the raw pair
`Z -> "9"` — the field is stored, not skipped, refuting "contributes
nothing to the decoded message".  (Parsing does continue: `current` is
still decoded to 1.) -/
theorem c5_counterexample_unknown_field_is_stored :
    (DeviceMessage.from_string "7:Z9,A010!AB:").map
        (fun m => (getField m "Z", getField m "current")) =
      some (some (PyVal.str "9"), some (PyVal.num 1)) := by decide

/-- C5 amended: decoding a field with an unknown one-character code is
non-fatal — the diagnostic is emitted and the raw code/value pair is
stored verbatim in the decoded message (code character as field name, raw
text as value) instead of being skipped; parsing of the remaining fields
continues (shown on the telegram `8:Q7,A020!CD:` whose later `A` field is
still decoded). -/
theorem c5_amended_unknown_field_raw_passthrough :
    ∀ (c : Char) (rest : List Char),
      DeviceMessage.xlat c = none →
        DeviceMessage.unknown_cmd_diag (c :: rest) = true
        ∧ DeviceMessage.xlat_payload_part (c :: rest) =
            some (String.mk [c], PyVal.str (String.mk rest))
        ∧ (DeviceMessage.from_string "8:Q7,A020!CD:").map
            (fun m => (getField m "Q", getField m "current")) =
          some (some (PyVal.str "7"), some (PyVal.num 2)) := by
  intro c rest h
  refine ⟨?_, ?_, by decide⟩
  · simp [DeviceMessage.unknown_cmd_diag, h]
  · simp [DeviceMessage.xlat_payload_part, h]

/-- C5 witness: the amended statement instantiated at the unknown code `Z`
with raw value text `9`. -/
theorem c5_amended_witness :
    DeviceMessage.xlat 'Z' = none
    ∧ (DeviceMessage.unknown_cmd_diag ('Z' :: "9".data) = true
       ∧ DeviceMessage.xlat_payload_part ('Z' :: "9".data) =
           some (String.mk ['Z'], PyVal.str (String.mk "9".data))
       ∧ (DeviceMessage.from_string "8:Q7,A020!CD:").map
           (fun m => (getField m "Q", getField m "current")) =
         some (some (PyVal.str "7"), some (PyVal.num 2))) :=
  ⟨by decide, c5_amended_unknown_field_raw_passthrough 'Z' "9".data (by decide)⟩

/-- C6 counterexample: the line `oops` matches neither grammar, so the
decoded message keeps the default payload kind `data`, yet it has no
`current` value at all — the default-to-0 rule runs only inside the
data-grammar branch. -/
theorem c6_counterexample_unmatched_data_has_no_current :
    (DeviceMessage.from_string "oops").map
        (fun m => (m.payload_type, getField m "current")) =
      some ("data", none) := by decide

/-- C6 amended: for every input line matched by the data grammar, if no
payload field carries the `current` code `A` then the decoded message's
`current` is 0. -/
theorem c6_amended_current_defaults_to_zero :
    ∀ (s : String) (d pl crc : List Char) (m : DeviceMessage),
      dataMatchL s.data = some (d, pl, crc) →
      DeviceMessage.from_string s = some m →
      (∀ p ∈ splitComma pl, p.head? ≠ some 'A') →
      getField m "current" = some (PyVal.int 0) := by
  intro s d pl crc m hd hf hA
  simp only [DeviceMessage.from_string, hd] at hf
  rcases Option.map_eq_some'.mp hf with ⟨fs, hfs, hm⟩
  subst hm
  have hnc := processParts_no_current (splitComma pl) fs hfs hA
  simp [getField, hnc, List.find?]

/-- C6 witness: the amended statement instantiated on the telegram
`4:S2!EE:`, which has no `A` field. -/
theorem c6_amended_witness :
    ∃ m, DeviceMessage.from_string "4:S2!EE:" = some m
      ∧ getField m "current" = some (PyVal.int 0) :=
  ⟨_, rfl, c6_amended_current_defaults_to_zero "4:S2!EE:" "4".data "S2".data "EE".data _
    (by decide) rfl (by decide)⟩

/-- C7: decoding applies the declared multiplier first and the declared
offset after it, so the temperature code yields `raw * 1.8 + 32` (and the
other scaled codes yield `raw * 0.1` / `raw * 0.01`); for the one code
with a label list (`S`, which declares no scaling) the converted integer
— the pre-scaling value — indexes the list to produce the label. -/
theorem c7_scaling_order_and_labels :
    (∀ (raw : List Char) (q : ℚ), pyFloat raw = some q →
       DeviceMessage.xlat_payload_part ('T' :: raw) =
         some ("temperature", PyVal.num (q * (1.8 : ℚ) + 32)))
    ∧ (∀ (raw : List Char) (q : ℚ), pyFloat raw = some q →
       DeviceMessage.xlat_payload_part ('A' :: raw) =
         some ("current", PyVal.num (q * (0.1 : ℚ))))
    ∧ (∀ (raw : List Char) (q : ℚ), pyFloat raw = some q →
       DeviceMessage.xlat_payload_part ('V' :: raw) =
         some ("voltage", PyVal.num (q * (0.1 : ℚ))))
    ∧ (∀ (raw : List Char) (q : ℚ), pyFloat raw = some q →
       DeviceMessage.xlat_payload_part ('f' :: raw) =
         some ("frequency", PyVal.num (q * (0.01 : ℚ))))
    ∧ (∀ (raw : List Char) (n : ℤ), pyInt raw = some n → 0 ≤ n → n < 5 →
       DeviceMessage.xlat_payload_part ('S' :: raw) =
         some ("status", PyVal.str
           (["unplugged", "plugged-in", "charging", "not-defined",
             "error"].getD n.toNat ""))) := by
  refine ⟨?_, ?_, ?_, ?_, ?_⟩
  · intro raw q h
    have hv : DeviceMessage.xlat_payload_part ('T' :: raw) =
        some ("temperature", PyVal.num (qadd (qmul q (mkRat 9 5)) (mkRat 32 1))) := by
      simp [DeviceMessage.xlat_payload_part, DeviceMessage.xlat, DeviceMessage.xlat_value, h]
    rw [hv]
    norm_num [qmul_eq, qadd_eq, Rat.mkRat_eq_div]
  · intro raw q h
    have hv : DeviceMessage.xlat_payload_part ('A' :: raw) =
        some ("current", PyVal.num (qmul q (mkRat 1 10))) := by
      simp [DeviceMessage.xlat_payload_part, DeviceMessage.xlat, DeviceMessage.xlat_value, h]
    rw [hv]
    norm_num [qmul_eq, Rat.mkRat_eq_div]
  · intro raw q h
    have hv : DeviceMessage.xlat_payload_part ('V' :: raw) =
        some ("voltage", PyVal.num (qmul q (mkRat 1 10))) := by
      simp [DeviceMessage.xlat_payload_part, DeviceMessage.xlat, DeviceMessage.xlat_value, h]
    rw [hv]
    norm_num [qmul_eq, Rat.mkRat_eq_div]
  · intro raw q h
    have hv : DeviceMessage.xlat_payload_part ('f' :: raw) =
        some ("frequency", PyVal.num (qmul q (mkRat 1 100))) := by
      simp [DeviceMessage.xlat_payload_part, DeviceMessage.xlat, DeviceMessage.xlat_value, h]
    rw [hv]
    norm_num [qmul_eq, Rat.mkRat_eq_div]
  · intro raw n h h0 h5
    have hidx : pyIndexStr ["unplugged", "plugged-in", "charging", "not-defined", "error"] n =
        some (["unplugged", "plugged-in", "charging", "not-defined",
          "error"].getD n.toNat "") := by
      unfold pyIndexStr
      rw [if_pos]
      exact ⟨h0, by simpa using h5⟩
    simp [DeviceMessage.xlat_payload_part, DeviceMessage.xlat, DeviceMessage.xlat_value, h,
      hidx]

/-- C7 witness: the temperature transform at raw reading 300 and the label
lookup at status 1. -/
theorem c7_witness :
    (pyFloat "300".data = some 300
      ∧ DeviceMessage.xlat_payload_part ('T' :: "300".data) =
          some ("temperature", PyVal.num ((300 : ℚ) * (1.8 : ℚ) + 32)))
    ∧ (pyInt "1".data = some 1 ∧ (0 : ℤ) ≤ 1 ∧ (1 : ℤ) < 5
      ∧ DeviceMessage.xlat_payload_part ('S' :: "1".data) =
          some ("status", PyVal.str "plugged-in")) := by
  constructor
  · exact ⟨by decide, c7_scaling_order_and_labels.1 "300".data 300 (by decide)⟩
  · refine ⟨by decide, by decide, by decide, ?_⟩
    have := c7_scaling_order_and_labels.2.2.2.2 "1".data 1 (by decide) (by decide)
      (by decide)
    simpa using this

/-- C8: parsing the reference telegram `123:A010,S1,C032!AB12:` yields a
data-kind message with device id `123`, current 1, status `plugged-in`
and available current 32; the checksum token `AB12` is stored verbatim
(no definition in this development ever reads it — it is unvalidated). -/
theorem c8_reference_telegram :
    (DeviceMessage.from_string "123:A010,S1,C032!AB12:").map
        (fun m => (m.device_id, m.payload_type, m.crc)) =
      some (some "123", "data", some "AB12")
    ∧ (DeviceMessage.from_string "123:A010,S1,C032!AB12:").map
        (fun m => (getField m "current", getField m "status",
                   getField m "current_available")) =
      some (some (PyVal.num 1), some (PyVal.str "plugged-in"),
            some (PyVal.int 32)) :=
  ⟨by decide, by decide⟩

/-- C9: on the data telegram `123:v09u,s27,M16,C32!ABC:` the reply copies
the reported default current 16 into the offline amperage and the
reported available current 32 into the instant amperage and seeds the
counter from the reported sequence 27 (giving 28, command 6) — but even
though the device reported version `09u`, the reply's version stays
absent: the guard `hasattr(smsg, "version")` tests the freshly built
outbound record rather than the device message, so the claimed
copy-through never happens. -/
theorem c9_version_not_copied_into_reply :
    ((DeviceMessage.from_string "123:v09u,s27,M16,C32!ABC:").bind
        (JuiceboxService.create_reply_message ServiceMessage.fresh)).map
        (fun r => (r.offline_amperage, r.instant_amperage, r.version)) =
      some (some (PyVal.int 16), some (PyVal.int 32), none)
    ∧ ((DeviceMessage.from_string "123:v09u,s27,M16,C32!ABC:").bind
        (JuiceboxService.create_reply_message ServiceMessage.fresh)).map
        (fun r => (r.counter, r.command)) = some (28, 6)
    ∧ (DeviceMessage.from_string "123:v09u,s27,M16,C32!ABC:").map
        (fun m => getField m "version") = some (some (PyVal.str "09u")) :=
  ⟨by decide, by decide, by decide⟩

/-- Helper: when the delimiter has been found inside `s`, appending more
characters changes neither the scanned run nor where it stops. -/
theorem takeWhile_append_of_stop {p : Char → Bool} (s e : List Char)
    (h : s.dropWhile p ≠ []) :
    (s ++ e).takeWhile p = s.takeWhile p
    ∧ (s ++ e).dropWhile p = s.dropWhile p ++ e := by
  induction s with
  | nil => simp at h
  | cons c t ih =>
    by_cases hp : p c
    · simp only [List.dropWhile_cons_of_pos hp] at h
      simp only [List.cons_append, List.takeWhile_cons_of_pos hp,
        List.dropWhile_cons_of_pos hp]
      exact ⟨by rw [(ih h).1], (ih h).2⟩
    · simp [List.takeWhile_cons_of_neg hp, List.dropWhile_cons_of_neg hp]

/-- Helper: a successful token scan is unaffected by appended characters. -/
theorem scanTok_append (p : Char → Bool) (dl : Char) (s e tok rest : List Char)
    (h : scanTok p dl s = some (tok, rest)) :
    scanTok p dl (s ++ e) = some (tok, rest ++ e) := by
  unfold scanTok at h ⊢
  split at h
  case _ t0 t1 d rest0 heq1 heq2 =>
    split at h
    case _ hd =>
      obtain ⟨g1, g2⟩ :=
        takeWhile_append_of_stop s e (by rw [heq2]; exact List.cons_ne_nil _ _)
      rw [g1, g2, heq1, heq2]
      simp only [List.cons_append]
      injection h with h
      injection h with h1 h2
      subst h1; subst h2; subst hd
      simp
    case _ hd => exact Option.noConfusion h
  case _ => exact Option.noConfusion h

/-- Helper: a successful token scan decomposes its input as the scanned
run, the delimiter, and the remainder. -/
theorem scanTok_decomp (p : Char → Bool) (dl : Char) (s tok rest : List Char)
    (h : scanTok p dl s = some (tok, rest)) : s = tok ++ dl :: rest := by
  unfold scanTok at h
  split at h
  case _ t0 t1 d rest0 heq1 heq2 =>
    split at h
    case _ hd =>
      injection h with h
      injection h with h1 h2
      subst h1; subst h2; subst hd
      conv_lhs => rw [← List.takeWhile_append_dropWhile p s]
      rw [heq1, heq2]
    case _ => exact Option.noConfusion h
  case _ => exact Option.noConfusion h

/-- Helper: a successful data-grammar match survives any appended suffix
with the same captured groups. -/
theorem dataMatchL_append (s e : List Char) (t : List Char × List Char × List Char)
    (h : dataMatchL s = some t) : dataMatchL (s ++ e) = some t := by
  unfold dataMatchL at h ⊢
  rcases hs1 : scanTok Char.isDigit ':' s with _ | ⟨d, r2⟩ <;> simp only [hs1] at h
  · exact Option.noConfusion h
  rcases hs2 : scanTok isPayloadC '!' r2 with _ | ⟨pl, r4⟩ <;> simp only [hs2] at h
  · exact Option.noConfusion h
  rcases hs3 : scanTok isWordC ':' r4 with _ | ⟨crc, rest⟩ <;> simp only [hs3] at h
  · exact Option.noConfusion h
  simp only [scanTok_append Char.isDigit ':' s e d r2 hs1,
    scanTok_append isPayloadC '!' r2 e pl r4 hs2,
    scanTok_append isWordC ':' r4 e crc rest hs3]
  exact h

/-- Helper: a list whose `getLast?` is known splits off its last element. -/
theorem eq_dropLast_append_of_getLast (l : List Char) (a : Char)
    (h : l.getLast? = some a) : l = l.dropLast ++ [a] := by
  have hne : l ≠ [] := by
    intro he
    subst he
    simp at h
  have hc := List.dropLast_concat_getLast hne
  rw [List.getLast?_eq_getLast l hne] at h
  injection h with h
  rw [h] at hc
  exact hc.symm

/-- Helper: a line accepted by the debug grammar ends with a colon. -/
theorem debugMatchL_ends_with_colon (s : List Char)
    (t : List Char × List Char × List Char)
    (h : debugMatchL s = some t) : ∃ u, s = u ++ [':'] := by
  unfold debugMatchL at h
  rcases hs1 : scanTok Char.isDigit ':' s with _ | ⟨d, r1⟩ <;> simp only [hs1] at h
  · exact Option.noConfusion h
  split at h
  case _ r2 =>
    rcases hs2 : scanTok isWordC ':' r2 with _ | ⟨lvl, r4⟩ <;> simp only [hs2] at h
    · exact Option.noConfusion h
    split at h
    case _ hc =>
      obtain ⟨hlen, hlast, hnl⟩ := hc
      have hs := scanTok_decomp Char.isDigit ':' s d
        ('D' :: 'B' :: 'G' :: ',' :: r2) hs1
      have hr2 := scanTok_decomp isWordC ':' r2 lvl r4 hs2
      have hr4 := eq_dropLast_append_of_getLast r4 ':' hlast
      refine ⟨d ++ ':' :: 'D' :: 'B' :: 'G' :: ',' :: (lvl ++ ':' :: r4.dropLast), ?_⟩
      rw [hs, hr2]
      conv_lhs => rw [hr4]
      simp
    case _ => exact Option.noConfusion h
  case _ => exact Option.noConfusion h

/-- C10: a line whose prefix matches the data grammar is accepted with the
same captured groups whatever follows the closing colon, and the decoded
result — device id, checksum, payload kind and fields — is the one of the
matching prefix alone (only the echoed raw `payload` text differs); the
debug grammar, being anchored at both ends, only accepts lines whose last
character is the final colon. -/
theorem c10_data_open_ended_debug_anchored :
    (∀ (s e : List Char) (t : List Char × List Char × List Char),
       dataMatchL s = some t →
         dataMatchL (s ++ e) = some t
         ∧ (DeviceMessage.from_string (String.mk (s ++ e))).map msgCore =
             (DeviceMessage.from_string (String.mk s)).map msgCore)
    ∧ (∀ (s : List Char) (t : List Char × List Char × List Char),
       debugMatchL s = some t → ∃ u, s = u ++ [':']) := by
  constructor
  · intro s e t h
    have hA := dataMatchL_append s e t h
    refine ⟨hA, ?_⟩
    obtain ⟨d, pl, crc⟩ := t
    simp only [DeviceMessage.from_string, hA, h]
    cases processParts (splitComma pl) <;> simp [msgCore]
  · exact debugMatchL_ends_with_colon

/-- C10 witness: the data line `1:A5!F:` still parses with the same groups
when `junk` follows its closing colon, and the accepted debug line
`9:DBG,1:ok:` ends with a colon. -/
theorem c10_witness :
    (dataMatchL ("1:A5!F:".data ++ "junk".data) =
        some ("1".data, "A5".data, "F".data)
      ∧ (DeviceMessage.from_string (String.mk ("1:A5!F:".data ++ "junk".data))).map
            msgCore =
          (DeviceMessage.from_string (String.mk "1:A5!F:".data)).map msgCore)
    ∧ (∃ u, "9:DBG,1:ok:".data = u ++ [':']) := by
  constructor
  · exact c10_data_open_ended_debug_anchored.1 "1:A5!F:".data "junk".data
      ("1".data, "A5".data, "F".data) (by decide)
  · exact c10_data_open_ended_debug_anchored.2 "9:DBG,1:ok:".data
      ("9".data, "1".data, "ok".data) (by decide)
